import Mathlib

/-!
Shallow embedding of the SPD3303X instrument-control protocol layer
(src/instrument.rs) and proofs about it.

Modelling conventions:
* Rust `u8`/`u32` values become `Nat` (with explicit bounds where a claim
  needs them); the bit arithmetic of the status word is mirrored with
  `Nat` bitwise operators.
* Rust `f64` values are modelled by their exact rational value (`ℚ`) for
  command encoding; parsed floats are modelled by `FVal`, which mirrors the
  fact that Rust's float grammar also accepts infinities and NaN.
* `anyhow::Result` errors are classified into the error taxonomy of the
  specification (`Err`); each constructor corresponds to the distinct
  error message produced at the corresponding source site.
* The VXI-11 transport is modelled by an oracle giving the outcome of the
  i-th raw write and the i-th raw read; the session facade methods live in
  the state monad `M`, which records the exact list of command strings
  handed to the transport (in order), so ordering and fail-fast claims are
  statable.
-/

deriving instance DecidableEq for Except

namespace Spd

/-- Mirror of enum Channel in src/instrument.rs. -/
inductive Channel
  | Ch1
  | Ch2
  | Ch3
deriving DecidableEq, Repr

/-- Mirror of Channel::as_scpi. -/
def Channel.as_scpi : Channel → String
  | .Ch1 => "CH1"
  | .Ch2 => "CH2"
  | .Ch3 => "CH3"

/-- Mirror of enum OutputState. -/
inductive OutputState
  | On
  | Off
deriving DecidableEq, Repr

/-- Mirror of OutputState::as_str. -/
def OutputState.as_str : OutputState → String
  | .On => "ON"
  | .Off => "OFF"

/-- Mirror of enum TrackMode. -/
inductive TrackMode
  | Independent
  | Series
  | Parallel
deriving DecidableEq, Repr

/-- Mirror of enum TimerState. -/
inductive TimerState
  | On
  | Off
deriving DecidableEq, Repr

/-- Mirror of TimerState::as_str. -/
def TimerState.as_str : TimerState → String
  | .On => "ON"
  | .Off => "OFF"

/-- Mirror of enum DhcpState. -/
inductive DhcpState
  | On
  | Off
deriving DecidableEq, Repr

/-- Mirror of DhcpState::as_str. -/
def DhcpState.as_str : DhcpState → String
  | .On => "ON"
  | .Off => "OFF"

/-- Mirror of enum RegulationMode. -/
inductive RegulationMode
  | ConstantVoltage
  | ConstantCurrent
deriving DecidableEq, Repr

/-- Error taxonomy of the specification; each constructor carries the
message text of the anyhow error raised at the corresponding source site. -/
inductive Err
  | transport (msg : String)
  | emptyResponse (command : String)
  | decodeFailure (msg : String)
  | capabilityViolation (msg : String)
  | rangeViolation (msg : String)
  | unknownEnumValue (msg : String)
deriving DecidableEq, Repr

/-- Mirror of TrackMode::as_value (the integer write encoding). -/
def TrackMode.as_value : TrackMode → Nat
  | .Independent => 0
  | .Series => 1
  | .Parallel => 2

/-- Mirror of TrackMode::from_value; the u8 argument is modelled as Nat. -/
def TrackMode.from_value (value : Nat) : Except Err TrackMode :=
  match value with
  | 0 => .ok .Independent
  | 1 => .ok .Series
  | 2 => .ok .Parallel
  | other => .error (.unknownEnumValue ("unknown track mode value " ++ toString other))

/-- Mirror of struct SystemStatus; the raw u32 word is modelled as Nat. -/
structure SystemStatus where
  raw : Nat
  ch1_regulation_mode : RegulationMode
  ch2_regulation_mode : RegulationMode
  track_mode : Option TrackMode
  ch1_output_on : Bool
  ch2_output_on : Bool
  timer1_on : Bool
  timer2_on : Bool
  ch1_waveform_display : Bool
  ch2_waveform_display : Bool
  parallel_mode : Bool
deriving DecidableEq, Repr

/-- Mirror of SystemStatus::from_word (bit arithmetic on the u32 word,
modelled on Nat). -/
def SystemStatus.from_word (word : Nat) : SystemStatus :=
  let ch1_regulation_mode :=
    if word &&& (1 <<< 0) = 0 then RegulationMode.ConstantVoltage
    else RegulationMode.ConstantCurrent
  let ch2_regulation_mode :=
    if word &&& (1 <<< 1) = 0 then RegulationMode.ConstantVoltage
    else RegulationMode.ConstantCurrent
  let track_bits := (word >>> 2) &&& 3
  let track_mode : Option TrackMode :=
    match track_bits with
    | 1 => some .Independent
    | 3 => some .Series
    | 2 => some .Parallel
    | _ => none
  let ch1_output_on := word &&& (1 <<< 4) != 0
  let ch2_output_on := word &&& (1 <<< 5) != 0
  let timer1_on := word &&& (1 <<< 6) != 0
  let timer2_on := word &&& (1 <<< 7) != 0
  let ch1_waveform_display := word &&& (1 <<< 8) != 0
  let ch2_waveform_display := word &&& (1 <<< 9) != 0
  let parallel_mode := word &&& (1 <<< 10) != 0
  { raw := word
    ch1_regulation_mode := ch1_regulation_mode
    ch2_regulation_mode := ch2_regulation_mode
    track_mode := track_mode
    ch1_output_on := ch1_output_on
    ch2_output_on := ch2_output_on
    timer1_on := timer1_on
    timer2_on := timer2_on
    ch1_waveform_display := ch1_waveform_display
    ch2_waveform_display := ch2_waveform_display
    parallel_mode := parallel_mode }

/-! String and character helpers mirroring the std routines used by the
source (str::trim, str::trim_matches, str::split, to_uppercase,
eq_ignore_ascii_case, str::parse::<f64>, format precision). -/

/-- The NUL character stripped by trim_matches(char::from(0)). -/
def nulChar : Char := Char.ofNat 0

/-- Unicode White_Space test used by Rust str::trim. -/
def isRustWs (c : Char) : Bool :=
  let n := c.toNat
  n == 0x09 || n == 0x0A || n == 0x0B || n == 0x0C || n == 0x0D || n == 0x20 ||
  n == 0x85 || n == 0xA0 || n == 0x1680 || (0x2000 ≤ n && n ≤ 0x200A) ||
  n == 0x2028 || n == 0x2029 || n == 0x202F || n == 0x205F || n == 0x3000

/-- Drop characters satisfying p from both ends of a list (the shape of
Rust's trim_matches). -/
def dropEnds (p : Char → Bool) (l : List Char) : List Char :=
  ((l.dropWhile p).reverse.dropWhile p).reverse

/-- Mirror of str::trim (Unicode-whitespace trim at both ends). -/
def trimRust (s : String) : String := ⟨dropEnds isRustWs s.data⟩

/-- Mirror of the response normalisation in Spd3303x::query:
raw.trim_matches(char::from(0)).trim(). -/
def trimResp (raw : String) : String :=
  trimRust ⟨dropEnds (fun c => c == nulChar) raw.data⟩

/-- Mirror of str::split(',') on a character list; always returns at least
one (possibly empty) field. -/
def splitComma : List Char → List (List Char)
  | [] => [[]]
  | c :: cs =>
    if c = ',' then [] :: splitComma cs
    else
      match splitComma cs with
      | [] => [[c]]
      | h :: t => (c :: h) :: t

/-- Check that the first list starts with the second one. -/
def startsWithL : List Char → List Char → Bool
  | _, [] => true
  | [], _ :: _ => false
  | a :: xs, b :: ys => a == b && startsWithL xs ys

/-- Check that the second list occurs contiguously inside the first
(the shape of Rust's str::contains with a literal pattern). -/
def hasInfixL : List Char → List Char → Bool
  | [], pat => startsWithL [] pat
  | c :: cs, pat => startsWithL (c :: cs) pat || hasInfixL cs pat

/-- ASCII uppercase map; models str::to_uppercase on the ASCII fragment
exercised by the protocol. -/
def rustToUpper (c : Char) : Char :=
  if 0x61 ≤ c.toNat ∧ c.toNat ≤ 0x7A then Char.ofNat (c.toNat - 32) else c

/-- ASCII lowercase map, used to model eq_ignore_ascii_case and the
case-insensitive float keywords. -/
def asciiLower (c : Char) : Char :=
  if 0x41 ≤ c.toNat ∧ c.toNat ≤ 0x5A then Char.ofNat (c.toNat + 32) else c

/-- Mirror of str::eq_ignore_ascii_case. -/
def eqIgnoreAsciiCase (l r : List Char) : Bool :=
  (l.map asciiLower) == (r.map asciiLower)

/-- ASCII decimal digit test. -/
def isAsciiDigit (c : Char) : Bool := 0x30 ≤ c.toNat && c.toNat ≤ 0x39

/-- Numeric value of a list of ASCII digits (most significant first). -/
def digitsToNat (l : List Char) : Nat :=
  l.foldl (fun a c => a * 10 + (c.toNat - 0x30)) 0

/-- Result of Rust's f64 parse, keeping the fact that the grammar also
accepts infinities and NaN; a finite value is modelled by its exact
decimal value as a rational. -/
inductive FVal
  | finite (q : ℚ)
  | infinite (neg : Bool)
  | nan
deriving DecidableEq, Repr

/-- Significand and exponent to a rational: (ip.fp) * 10^e, negated when
neg is set; built with mkRat so that kernel evaluation stays concrete. -/
def mkFinite (neg : Bool) (ip fp : List Char) (e : ℤ) : ℚ :=
  let mant : ℤ := (digitsToNat ip * 10 ^ fp.length + digitsToNat fp : ℕ)
  let net : ℤ := e - fp.length
  let mag : ℚ :=
    if 0 ≤ net then mkRat (mant * (10 : ℤ) ^ net.toNat) 1
    else mkRat mant ((10 : ℕ) ^ (-net).toNat)
  if neg then -mag else mag

/-- Optional exponent part of the f64 grammar; the whole remainder must be
consumed. -/
def parseExpPart (neg : Bool) (ip fp : List Char) (r : List Char) : Option FVal :=
  match r with
  | [] => some (.finite (mkFinite neg ip fp 0))
  | e :: r1 =>
    if e = 'e' ∨ e = 'E' then
      let signAndRest :=
        match r1 with
        | '+' :: t => (false, t)
        | '-' :: t => (true, t)
        | t => (false, t)
      let ed := signAndRest.2.takeWhile isAsciiDigit
      let rest := signAndRest.2.dropWhile isAsciiDigit
      if ed = [] ∨ rest ≠ [] then none
      else
        some (.finite (mkFinite neg ip fp
          (if signAndRest.1 then -(digitsToNat ed : ℤ) else (digitsToNat ed : ℤ))))
    else none

/-- Mirror of Rust's str::parse::<f64> grammar:
Sign? (inf | infinity | nan | Digits ('.' Digits?)? Exp? | '.' Digits Exp?)
with case-insensitive keywords; no surrounding whitespace is accepted. -/
def parseFloatChars (l : List Char) : Option FVal :=
  let signAndRest :=
    match l with
    | '+' :: r => (false, r)
    | '-' :: r => (true, r)
    | r => (false, r)
  let neg := signAndRest.1
  let rest := signAndRest.2
  let low := rest.map asciiLower
  if low = ['i', 'n', 'f'] ∨ low = ['i', 'n', 'f', 'i', 'n', 'i', 't', 'y'] then
    some (.infinite neg)
  else if low = ['n', 'a', 'n'] then some .nan
  else
    let ip := rest.takeWhile isAsciiDigit
    let r1 := rest.dropWhile isAsciiDigit
    match r1 with
    | '.' :: r2 =>
      let fp := r2.takeWhile isAsciiDigit
      let r3 := r2.dropWhile isAsciiDigit
      if ip = [] ∧ fp = [] then none else parseExpPart neg ip fp r3
    | _ => if ip = [] then none else parseExpPart neg ip [] r1

/-- Mirror of fn parse_f64 (trim, then parse as f64, wrapping the parse
error into a decode failure). -/
def parse_f64 (input : String) : Except Err FVal :=
  match parseFloatChars (trimRust input).data with
  | some v => .ok v
  | none => .error (.decodeFailure ("failed to parse float from " ++ input))

/-- Mirror of fn parse_on_off (the lenient ON/1 helper; note that
query_dhcp does not call it). -/
def parse_on_off (value : String) : Bool :=
  eqIgnoreAsciiCase (trimRust value).data ['O', 'N'] || trimRust value == "1"

/-- The pure decode step of Spd3303x::query_dhcp:
resp.to_uppercase().contains("ON"). -/
def dhcp_decode (resp : String) : Bool :=
  hasInfixL (resp.data.map rustToUpper) ['O', 'N']

/-- Mirror of struct TimerEntry (u8 group as Nat, f64 fields as FVal). -/
structure TimerEntry where
  group : Nat
  voltage_v : FVal
  current_a : FVal
  duration_s : FVal
deriving DecidableEq, Repr

/-- Mirror of fn parse_timer_response: trim, split on commas, take the
first three fields as voltage, current, duration (fail-fast), and attach
the caller-supplied group. -/
def parse_timer_response (group : Nat) (resp : String) : Except Err TimerEntry :=
  match splitComma (trimRust resp).data with
  | [] => .error (.decodeFailure "missing voltage in timer response")
  | f1 :: rest1 =>
    match parseFloatChars f1 with
    | none => .error (.decodeFailure "invalid float literal")
    | some voltage =>
      match rest1 with
      | [] => .error (.decodeFailure "missing current in timer response")
      | f2 :: rest2 =>
        match parseFloatChars f2 with
        | none => .error (.decodeFailure "invalid float literal")
        | some current =>
          match rest2 with
          | [] => .error (.decodeFailure "missing duration in timer response")
          | f3 :: _ =>
            match parseFloatChars f3 with
            | none => .error (.decodeFailure "invalid float literal")
            | some duration =>
              .ok { group := group, voltage_v := voltage,
                    current_a := current, duration_s := duration }

/-- Decimal digits of a natural number, most significant first, with an
explicit fuel so the kernel can evaluate it; the fuel only needs to cover
the number of digits. -/
def natStrAux : Nat → Nat → List Char → List Char
  | 0, _, acc => acc
  | fuel + 1, n, acc =>
    if n < 10 then Nat.digitChar n :: acc
    else natStrAux fuel (n / 10) (Nat.digitChar (n % 10) :: acc)

/-- Decimal digits of a natural number, most significant first. -/
def natStr (n : Nat) : List Char := natStrAux (n + 1) n []

/-- Zero-pad a digit list on the left to six characters. -/
def padSix (ds : List Char) : List Char :=
  List.replicate (6 - ds.length) '0' ++ ds

/-- Round the fraction num/den (den positive) to the nearest integer,
ties to even. -/
def roundHalfEven (num den : ℤ) : ℤ :=
  let fl := Int.fdiv num den
  let r := num - fl * den
  if 2 * r < den then fl
  else if den < 2 * r then fl + 1
  else if fl % 2 = 0 then fl else fl + 1

/-- Model of Rust format "{:.6}" on a finite f64 given by its exact
rational value: the correctly rounded fixed-point decimal with exactly six
fractional digits (ties to even, as in the std float formatter). -/
def fmt6 (q : ℚ) : String :=
  let neg := q.num < 0
  let mag : ℤ := if q.num < 0 then -q.num else q.num
  let n := (roundHalfEven (mag * 1000000) (q.den : ℤ)).toNat
  let ipart := n / 1000000
  let fpart := n % 1000000
  (if neg then "-" else "") ++ ⟨natStr ipart⟩ ++ "." ++ ⟨padSix (natStr fpart)⟩

/-- The exact rational value of the IEEE-754 binary64 number nearest to
3.3 (the f64 literal 3.3 in the examples); the denominator is 2 ^ 50. -/
def f64_3_3 : ℚ := mkRat 3715469692580659 1125899906842624

/-- Parse the status word response of SYSTem:STATus?: strip leading
repetitions of "0x" (str::trim_start_matches), trim, then parse as a hex
u32 (u32::from_str_radix(_, 16), with its overflow check). -/
def stripLeading0x : List Char → List Char
  | '0' :: 'x' :: rest => stripLeading0x rest
  | l => l

/-- ASCII hex digit value. -/
def hexDigitVal (c : Char) : Option Nat :=
  let n := c.toNat
  if 0x30 ≤ n ∧ n ≤ 0x39 then some (n - 0x30)
  else if 0x41 ≤ n ∧ n ≤ 0x46 then some (n - 0x41 + 10)
  else if 0x61 ≤ n ∧ n ≤ 0x66 then some (n - 0x61 + 10)
  else none

/-- Fold hex digits into a value, failing on a non-digit. -/
def hexFold : List Char → Nat → Option Nat
  | [], acc => some acc
  | c :: cs, acc =>
    match hexDigitVal c with
    | some d => hexFold cs (acc * 16 + d)
    | none => none

/-- Mirror of u32::from_str_radix(s, 16): optional '+' sign, then one or
more hex digits, rejecting the empty string and values above u32::MAX. -/
def parseHexU32 (l : List Char) : Option Nat :=
  let digits := match l with | '+' :: t => t | t => t
  if digits = [] then none
  else
    match hexFold digits 0 with
    | some v => if v < 2 ^ 32 then some v else none
    | none => none

/-! The session facade. The VXI-11 transport is modelled by an oracle:
wr i is the outcome of the i-th raw write (none = success, some msg = an
I/O failure with that message) and rd i the outcome of the i-th raw read.
The state records every command string handed to the transport, in order,
so ordering and "nothing was sent" claims are statable. -/

/-- Transport oracle: outcomes of successive raw writes and reads. -/
structure Oracle where
  wr : Nat → Option String
  rd : Nat → Except String String

/-- Session state: the list of commands written so far (in order, whether
or not the write succeeded) and the number of reads performed. -/
structure TState where
  sent : List String
  nr : Nat
deriving DecidableEq, Repr

/-- The session monad: oracle plus state, short-circuiting on Err. -/
def M (α : Type) : Type := Oracle → TState → Except Err α × TState

/-- Return a value without touching the transport. -/
def pureM {α : Type} (a : α) : M α := fun _ s => (.ok a, s)

/-- Sequencing with the fail-fast behaviour of the ? operator. -/
def bindM {α β : Type} (x : M α) (f : α → M β) : M β := fun o s =>
  match x o s with
  | (.ok a, s1) => f a o s1
  | (.error e, s1) => (.error e, s1)

/-- Lift a pure Result (a guard or a decode step) into the session. -/
def liftE {α : Type} (e : Except Err α) : M α := fun _ s => (e, s)

/-- Mirror of Spd3303x::write: hand one command string to the transport;
a transport failure surfaces as Err.transport. -/
def write (cmd : String) : M Unit := fun o s =>
  match o.wr s.sent.length with
  | none => (.ok (), { s with sent := s.sent ++ [cmd] })
  | some m => (.error (.transport m), { s with sent := s.sent ++ [cmd] })

/-- One raw transport read (DeviceClient::read). -/
def readResp : M String := fun o s =>
  match o.rd s.nr with
  | .ok r => (.ok r, { s with nr := s.nr + 1 })
  | .error m => (.error (.transport m), { s with nr := s.nr + 1 })

/-- Mirror of Spd3303x::query: write, read, strip NUL padding and trim,
and fail with the dedicated empty-response error when nothing is left. -/
def query (cmd : String) : M String :=
  bindM (write cmd) fun _ =>
  bindM readResp fun raw =>
  let trimmed := trimResp raw
  if trimmed = "" then liftE (.error (.emptyResponse cmd)) else pureM trimmed

/-- Mirror of fn ensure_slot. -/
def ensure_slot (slot : Nat) : Except Err Unit :=
  if 1 ≤ slot ∧ slot ≤ 5 then .ok ()
  else .error (.rangeViolation "slot must be 1..=5")

/-- Mirror of fn ensure_group. -/
def ensure_group (group : Nat) : Except Err Unit :=
  if 1 ≤ group ∧ group ≤ 5 then .ok ()
  else .error (.rangeViolation "timer group must be 1..=5")

/-- Mirror of fn guard_programmable. -/
def guard_programmable (channel : Channel) : Except Err Unit :=
  match channel with
  | .Ch1 | .Ch2 => .ok ()
  | .Ch3 =>
    .error (.capabilityViolation
      ("channel " ++ Channel.as_scpi .Ch3 ++ " does not support this command"))

namespace Spd3303x

/-- Mirror of Spd3303x::save_state. -/
def save_state (slot : Nat) : M Unit :=
  bindM (liftE (ensure_slot slot)) fun _ =>
  write ("*SAV " ++ toString slot ++ "\n")

/-- Mirror of Spd3303x::recall_state. -/
def recall_state (slot : Nat) : M Unit :=
  bindM (liftE (ensure_slot slot)) fun _ =>
  write ("*RCL " ++ toString slot ++ "\n")

/-- Mirror of Spd3303x::set_voltage (the f64 setpoint as its exact
rational value). -/
def set_voltage (channel : Channel) (volts : ℚ) : M Unit :=
  bindM (liftE (guard_programmable channel)) fun _ =>
  write (channel.as_scpi ++ ":VOLT " ++ fmt6 volts ++ "\n")

/-- Mirror of Spd3303x::query_voltage. -/
def query_voltage (channel : Channel) : M FVal :=
  bindM (liftE (guard_programmable channel)) fun _ =>
  bindM (query (channel.as_scpi ++ ":VOLT?\n")) fun resp =>
  liftE (parse_f64 resp)

/-- Mirror of Spd3303x::set_current. -/
def set_current (channel : Channel) (amps : ℚ) : M Unit :=
  bindM (liftE (guard_programmable channel)) fun _ =>
  write (channel.as_scpi ++ ":CURR " ++ fmt6 amps ++ "\n")

/-- Mirror of Spd3303x::query_current. -/
def query_current (channel : Channel) : M FVal :=
  bindM (liftE (guard_programmable channel)) fun _ =>
  bindM (query (channel.as_scpi ++ ":CURR?\n")) fun resp =>
  liftE (parse_f64 resp)

/-- Mirror of Spd3303x::set_output (no capability guard). -/
def set_output (channel : Channel) (state : OutputState) : M Unit :=
  write ("OUTPut " ++ channel.as_scpi ++ "," ++ state.as_str ++ "\n")

/-- Mirror of Spd3303x::set_track_mode. -/
def set_track_mode (mode : TrackMode) : M Unit :=
  write ("OUTP:TRACK " ++ toString mode.as_value ++ "\n")

/-- Mirror of Spd3303x::set_wave_display. -/
def set_wave_display (channel : Channel) (state : OutputState) : M Unit :=
  bindM (liftE (guard_programmable channel)) fun _ =>
  write ("OUTP:WAVE " ++ channel.as_scpi ++ "," ++ state.as_str ++ "\n")

/-- Mirror of Spd3303x::measure_voltage (optional channel; the suffix is
omitted when no channel is given). -/
def measure_voltage (channel : Option Channel) : M FVal :=
  bindM (match channel with
         | some ch => liftE (guard_programmable ch)
         | none => pureM ()) fun _ =>
  let sfx := match channel with
             | some ch => " " ++ ch.as_scpi
             | none => ""
  bindM (query ("MEAS:VOLT?" ++ sfx ++ "\n")) fun resp =>
  liftE (parse_f64 resp)

/-- Mirror of Spd3303x::measure_current. -/
def measure_current (channel : Option Channel) : M FVal :=
  bindM (match channel with
         | some ch => liftE (guard_programmable ch)
         | none => pureM ()) fun _ =>
  let sfx := match channel with
             | some ch => " " ++ ch.as_scpi
             | none => ""
  bindM (query ("MEAS:CURR?" ++ sfx ++ "\n")) fun resp =>
  liftE (parse_f64 resp)

/-- Mirror of Spd3303x::measure_power. -/
def measure_power (channel : Option Channel) : M FVal :=
  bindM (match channel with
         | some ch => liftE (guard_programmable ch)
         | none => pureM ()) fun _ =>
  let sfx := match channel with
             | some ch => " " ++ ch.as_scpi
             | none => ""
  bindM (query ("MEAS:POWEr?" ++ sfx ++ "\n")) fun resp =>
  liftE (parse_f64 resp)

/-- Mirror of Spd3303x::timer_set. -/
def timer_set (channel : Channel) (group : Nat) (voltage current seconds : ℚ) :
    M Unit :=
  bindM (liftE (guard_programmable channel)) fun _ =>
  bindM (liftE (ensure_group group)) fun _ =>
  write ("TIMER:SET " ++ channel.as_scpi ++ "," ++ toString group ++ "," ++
         fmt6 voltage ++ "," ++ fmt6 current ++ "," ++ fmt6 seconds ++ "\n")

/-- Mirror of Spd3303x::timer_query. -/
def timer_query (channel : Channel) (group : Nat) : M TimerEntry :=
  bindM (liftE (guard_programmable channel)) fun _ =>
  bindM (liftE (ensure_group group)) fun _ =>
  bindM (query ("TIMER:SET? " ++ channel.as_scpi ++ "," ++ toString group ++ "\n"))
    fun resp =>
  liftE (parse_timer_response group resp)

/-- Mirror of Spd3303x::timer_state. -/
def timer_state (channel : Channel) (state : TimerState) : M Unit :=
  bindM (liftE (guard_programmable channel)) fun _ =>
  write ("TIMER " ++ channel.as_scpi ++ "," ++ state.as_str ++ "\n")

/-- Mirror of Spd3303x::system_status: query SYST:STAT?, decode the hex
word, then apply the status word decoder. -/
def system_status : M SystemStatus :=
  bindM (query "SYST:STAT?\n") fun resp =>
  match parseHexU32 (dropEnds isRustWs (stripLeading0x resp.data)) with
  | some word => pureM (SystemStatus.from_word word)
  | none => liftE (.error (.decodeFailure ("invalid status word " ++ resp)))

/-- Mirror of Spd3303x::query_output: CH1/CH2 go through the status word;
CH3 is rejected with its dedicated capability error. -/
def query_output (channel : Channel) : M Bool :=
  match channel with
  | .Ch1 =>
    bindM system_status fun status => pureM status.ch1_output_on
  | .Ch2 =>
    bindM system_status fun status => pureM status.ch2_output_on
  | .Ch3 =>
    liftE (.error (.capabilityViolation
      ("CH3 does not support querying output state via SYST:STATus?; " ++
       "only on/off control (OUTPut CH3,ON/OFF) is available")))

/-- Mirror of Spd3303x::query_dhcp: query DHCP? and apply the lenient
contains-ON decode. -/
def query_dhcp : M DhcpState :=
  bindM (query "DHCP?\n") fun resp =>
  pureM (if dhcp_decode resp then DhcpState.On else DhcpState.Off)

/-- Mirror of Spd3303x::soft_reset: the fixed twelve-command sequence,
fail-fast at the first failing step. -/
def soft_reset : M Unit :=
  bindM (set_output .Ch1 .Off) fun _ =>
  bindM (set_output .Ch2 .Off) fun _ =>
  bindM (set_output .Ch3 .Off) fun _ =>
  bindM (set_track_mode .Independent) fun _ =>
  bindM (timer_state .Ch1 .Off) fun _ =>
  bindM (timer_state .Ch2 .Off) fun _ =>
  bindM (set_wave_display .Ch1 .Off) fun _ =>
  bindM (set_wave_display .Ch2 .Off) fun _ =>
  bindM (set_voltage .Ch1 0) fun _ =>
  bindM (set_current .Ch1 0) fun _ =>
  bindM (set_voltage .Ch2 0) fun _ =>
  bindM (set_current .Ch2 0) fun _ =>
  pureM ()

end Spd3303x

/-- Execute a list of commands in order with the fail-fast write loop;
soft_reset is definitionally this loop on its twelve command strings. -/
def runCmds : List String → M Unit
  | [] => pureM ()
  | c :: cs => bindM (write c) fun _ => runCmds cs

/-- The twelve commands of the soft reset, in issue order. -/
def softResetCmds : List String :=
  ["OUTPut CH1,OFF\n", "OUTPut CH2,OFF\n", "OUTPut CH3,OFF\n",
   "OUTP:TRACK 0\n",
   "TIMER CH1,OFF\n", "TIMER CH2,OFF\n",
   "OUTP:WAVE CH1,OFF\n", "OUTP:WAVE CH2,OFF\n",
   "CH1:VOLT 0.000000\n", "CH1:CURR 0.000000\n",
   "CH2:VOLT 0.000000\n", "CH2:CURR 0.000000\n"]

/-- Transport that accepts every write; reads return an empty payload. -/
def allOkOracle : Oracle := { wr := fun _ => none, rd := fun _ => .ok "" }

/-- Transport whose fourth write (index 3) fails with an I/O error. -/
def failAt3Oracle : Oracle :=
  { wr := fun i => if i = 3 then some "io failure" else none, rd := fun _ => .ok "" }

/-- Transport whose reads return a NUL-space-NUL payload. -/
def emptyRespOracle : Oracle :=
  { wr := fun _ => none, rd := fun _ => .ok "\u0000 \u0000" }

/-- Transport whose reads return the payload 3.14. -/
def okRespOracle : Oracle := { wr := fun _ => none, rd := fun _ => .ok "3.14" }

/-- Transport whose reads return the literal payload 1. -/
def dhcpOneOracle : Oracle := { wr := fun _ => none, rd := fun _ => .ok "1" }

/-! Theorems. -/

lemma and_one_shift_bne (w k : Nat) : (w &&& (1 <<< k) != 0) = w.testBit k := by
  rw [Nat.one_shiftLeft, Nat.and_two_pow]
  cases h : w.testBit k <;> simp [Nat.pow_eq_zero]

lemma and_one_shift_eq_zero (w k : Nat) :
    w &&& (1 <<< k) = 0 ↔ w.testBit k = false := by
  rw [Nat.one_shiftLeft, Nat.and_two_pow]
  cases h : w.testBit k <;> simp [Nat.pow_eq_zero]

/-- C5: the TrackMode integer write encoding maps Independent to 0, Series
to 1, Parallel to 2; decoding the encoding of any mode yields the mode
back, and decoding any integer other than 0, 1, 2 fails with the
unknown-enum-value error. -/
theorem track_mode_value_round_trip :
    (∀ m : TrackMode, TrackMode.from_value m.as_value = .ok m) ∧
    TrackMode.as_value .Independent = 0 ∧
    TrackMode.as_value .Series = 1 ∧
    TrackMode.as_value .Parallel = 2 ∧
    (∀ v : Nat, v ≠ 0 → v ≠ 1 → v ≠ 2 →
      TrackMode.from_value v =
        .error (.unknownEnumValue ("unknown track mode value " ++ toString v))) := by
  refine ⟨?_, rfl, rfl, rfl, ?_⟩
  · intro m; cases m <;> rfl
  · intro v h0 h1 h2
    obtain ⟨n, rfl⟩ : ∃ n, v = n + 3 := ⟨v - 3, by omega⟩
    rfl

/-- C5 witness: decoding 7 fails with the unknown-enum-value error. -/
theorem track_mode_from_value_7_fails :
    TrackMode.from_value 7 =
      .error (.unknownEnumValue ("unknown track mode value " ++ toString 7)) :=
  track_mode_value_round_trip.2.2.2.2 7 (by decide) (by decide) (by decide)

/-- C2: for every 32-bit word the status word decoder is total (it returns
a structured record keeping the raw word) and bit-exact: bit 0 set iff CH1
regulation is ConstantCurrent, bit 1 iff CH2 regulation is
ConstantCurrent, bit 4 iff CH1 output on, bit 5 iff CH2 output on, bit 6
iff timer1 on, bit 7 iff timer2 on, bit 8 iff CH1 waveform display, bit 9
iff CH2 waveform display, bit 10 iff parallel mode; bits 2 and 3 map the
pattern 0b01 to Independent, 0b11 to Series, 0b10 to Parallel and 0b00 to
the explicit unknown value none rather than an error. -/
theorem from_word_total_and_bit_exact (word : Nat) (_hw : word < 2 ^ 32) :
    (SystemStatus.from_word word).raw = word ∧
    ((SystemStatus.from_word word).ch1_regulation_mode = .ConstantCurrent ↔
      word.testBit 0 = true) ∧
    ((SystemStatus.from_word word).ch2_regulation_mode = .ConstantCurrent ↔
      word.testBit 1 = true) ∧
    (SystemStatus.from_word word).ch1_output_on = word.testBit 4 ∧
    (SystemStatus.from_word word).ch2_output_on = word.testBit 5 ∧
    (SystemStatus.from_word word).timer1_on = word.testBit 6 ∧
    (SystemStatus.from_word word).timer2_on = word.testBit 7 ∧
    (SystemStatus.from_word word).ch1_waveform_display = word.testBit 8 ∧
    (SystemStatus.from_word word).ch2_waveform_display = word.testBit 9 ∧
    (SystemStatus.from_word word).parallel_mode = word.testBit 10 ∧
    ((word >>> 2) &&& 3 = 1 →
      (SystemStatus.from_word word).track_mode = some .Independent) ∧
    ((word >>> 2) &&& 3 = 3 →
      (SystemStatus.from_word word).track_mode = some .Series) ∧
    ((word >>> 2) &&& 3 = 2 →
      (SystemStatus.from_word word).track_mode = some .Parallel) ∧
    ((word >>> 2) &&& 3 = 0 →
      (SystemStatus.from_word word).track_mode = none) := by
  have htrack : (SystemStatus.from_word word).track_mode =
      match (word >>> 2) &&& 3 with
      | 1 => some TrackMode.Independent
      | 3 => some TrackMode.Series
      | 2 => some TrackMode.Parallel
      | _ => none := rfl
  refine ⟨rfl, ?_, ?_, ?_, ?_, ?_, ?_, ?_, ?_, ?_, ?_, ?_, ?_, ?_⟩
  · show ((if word &&& (1 <<< 0) = 0 then RegulationMode.ConstantVoltage
        else RegulationMode.ConstantCurrent) = RegulationMode.ConstantCurrent) ↔
        word.testBit 0 = true
    cases h : word.testBit 0
    · rw [if_pos ((and_one_shift_eq_zero word 0).mpr h)]; simp
    · rw [if_neg (by rw [and_one_shift_eq_zero, h]; simp)]; simp
  · show ((if word &&& (1 <<< 1) = 0 then RegulationMode.ConstantVoltage
        else RegulationMode.ConstantCurrent) = RegulationMode.ConstantCurrent) ↔
        word.testBit 1 = true
    cases h : word.testBit 1
    · rw [if_pos ((and_one_shift_eq_zero word 1).mpr h)]; simp
    · rw [if_neg (by rw [and_one_shift_eq_zero, h]; simp)]; simp
  · exact and_one_shift_bne word 4
  · exact and_one_shift_bne word 5
  · exact and_one_shift_bne word 6
  · exact and_one_shift_bne word 7
  · exact and_one_shift_bne word 8
  · exact and_one_shift_bne word 9
  · exact and_one_shift_bne word 10
  · intro h; rw [htrack, h]
  · intro h; rw [htrack, h]
  · intro h; rw [htrack, h]
  · intro h; rw [htrack, h]

/-- C2 witness: the decoder applied to the word 1461 (binary
10110110101) reports track mode Independent from the 0b01 pattern. -/
theorem from_word_bits_at_1461 :
    (SystemStatus.from_word 1461).track_mode = some .Independent :=
  (from_word_total_and_bit_exact 1461 (by decide)).2.2.2.2.2.2.2.2.2.2.1 (by decide)

/-- C4: every programmable-only operation addressed to CH3 fails with the
capability error with no state change (so no byte reaches the transport),
including the output-state query with its dedicated message; the output
on/off set for CH3 is not guarded and hands its command to the transport. -/
theorem ch3_capability_guards (o : Oracle) (s : TState) (q1 q2 q3 : ℚ)
    (g : Nat) (ts : TimerState) (os : OutputState) :
    Spd3303x.set_voltage .Ch3 q1 o s =
      (.error (.capabilityViolation "channel CH3 does not support this command"), s) ∧
    Spd3303x.query_voltage .Ch3 o s =
      (.error (.capabilityViolation "channel CH3 does not support this command"), s) ∧
    Spd3303x.set_current .Ch3 q1 o s =
      (.error (.capabilityViolation "channel CH3 does not support this command"), s) ∧
    Spd3303x.query_current .Ch3 o s =
      (.error (.capabilityViolation "channel CH3 does not support this command"), s) ∧
    Spd3303x.measure_voltage (some .Ch3) o s =
      (.error (.capabilityViolation "channel CH3 does not support this command"), s) ∧
    Spd3303x.measure_current (some .Ch3) o s =
      (.error (.capabilityViolation "channel CH3 does not support this command"), s) ∧
    Spd3303x.measure_power (some .Ch3) o s =
      (.error (.capabilityViolation "channel CH3 does not support this command"), s) ∧
    Spd3303x.timer_set .Ch3 g q1 q2 q3 o s =
      (.error (.capabilityViolation "channel CH3 does not support this command"), s) ∧
    Spd3303x.timer_query .Ch3 g o s =
      (.error (.capabilityViolation "channel CH3 does not support this command"), s) ∧
    Spd3303x.timer_state .Ch3 ts o s =
      (.error (.capabilityViolation "channel CH3 does not support this command"), s) ∧
    Spd3303x.set_wave_display .Ch3 os o s =
      (.error (.capabilityViolation "channel CH3 does not support this command"), s) ∧
    Spd3303x.query_output .Ch3 o s =
      (.error (.capabilityViolation
        ("CH3 does not support querying output state via SYST:STATus?; " ++
         "only on/off control (OUTPut CH3,ON/OFF) is available")), s) ∧
    (Spd3303x.set_output .Ch3 os o s).2.sent =
      s.sent ++ ["OUTPut CH3," ++ os.as_str ++ "\n"] := by
  refine ⟨rfl, rfl, rfl, rfl, rfl, rfl, rfl, rfl, rfl, rfl, rfl, rfl, ?_⟩
  simp only [Spd3303x.set_output, write]
  cases h : o.wr s.sent.length <;> rfl

/-- C8: for state save/recall slots and timer groups, every value from
1 to 5 passes validation and the command is handed to the transport, and
every value outside that range is rejected with the range error with no
state change, so nothing is encoded onto the wire. -/
theorem slot_group_range_validation :
    (∀ n : Nat, 1 ≤ n → n ≤ 5 →
      ensure_slot n = .ok () ∧ ensure_group n = .ok () ∧
      ∀ (o : Oracle) (s : TState) (q1 q2 q3 : ℚ),
        (Spd3303x.save_state n o s).2.sent =
          s.sent ++ ["*SAV " ++ toString n ++ "\n"] ∧
        (Spd3303x.recall_state n o s).2.sent =
          s.sent ++ ["*RCL " ++ toString n ++ "\n"] ∧
        (Spd3303x.timer_set .Ch1 n q1 q2 q3 o s).2.sent =
          s.sent ++ ["TIMER:SET CH1," ++ toString n ++ "," ++ fmt6 q1 ++ "," ++
                     fmt6 q2 ++ "," ++ fmt6 q3 ++ "\n"]) ∧
    (∀ n : Nat, n < 1 ∨ 5 < n →
      ensure_slot n = .error (.rangeViolation "slot must be 1..=5") ∧
      ensure_group n = .error (.rangeViolation "timer group must be 1..=5") ∧
      ∀ (o : Oracle) (s : TState) (q1 q2 q3 : ℚ),
        Spd3303x.save_state n o s =
          (.error (.rangeViolation "slot must be 1..=5"), s) ∧
        Spd3303x.recall_state n o s =
          (.error (.rangeViolation "slot must be 1..=5"), s) ∧
        Spd3303x.timer_set .Ch1 n q1 q2 q3 o s =
          (.error (.rangeViolation "timer group must be 1..=5"), s) ∧
        Spd3303x.timer_query .Ch1 n o s =
          (.error (.rangeViolation "timer group must be 1..=5"), s)) := by
  constructor
  · intro n h1 h5
    have hok : (1 ≤ n ∧ n ≤ 5) := ⟨h1, h5⟩
    refine ⟨by simp [ensure_slot, hok], by simp [ensure_group, hok], ?_⟩
    intro o s q1 q2 q3
    refine ⟨?_, ?_, ?_⟩
    · simp only [Spd3303x.save_state, bindM, liftE, ensure_slot, if_pos hok, write]
      cases h : o.wr s.sent.length <;> rfl
    · simp only [Spd3303x.recall_state, bindM, liftE, ensure_slot, if_pos hok, write]
      cases h : o.wr s.sent.length <;> rfl
    · simp only [Spd3303x.timer_set, bindM, liftE, guard_programmable,
        ensure_group, if_pos hok, write]
      cases h : o.wr s.sent.length <;> rfl
  · intro n hout
    have hneg : ¬ (1 ≤ n ∧ n ≤ 5) := by omega
    refine ⟨by simp [ensure_slot, hneg], by simp [ensure_group, hneg], ?_⟩
    intro o s q1 q2 q3
    refine ⟨?_, ?_, ?_, ?_⟩ <;>
      simp only [Spd3303x.save_state, Spd3303x.recall_state, Spd3303x.timer_set,
        Spd3303x.timer_query, bindM, liftE, guard_programmable,
        ensure_slot, ensure_group, if_neg hneg]

/-- C8 witness: slot 3 is accepted and encoded; slot 6 and group 6 are
rejected with the range errors before anything is sent. -/
theorem slot_group_range_witness :
    (Spd3303x.save_state 3 allOkOracle ⟨[], 0⟩).2.sent =
      [] ++ ["*SAV " ++ toString 3 ++ "\n"] ∧
    Spd3303x.save_state 6 allOkOracle ⟨[], 0⟩ =
      (.error (.rangeViolation "slot must be 1..=5"), ⟨[], 0⟩) ∧
    Spd3303x.timer_query .Ch1 6 allOkOracle ⟨[], 0⟩ =
      (.error (.rangeViolation "timer group must be 1..=5"), ⟨[], 0⟩) :=
  ⟨((slot_group_range_validation.1 3 (by decide) (by decide)).2.2 allOkOracle
      ⟨[], 0⟩ 0 0 0).1,
   ((slot_group_range_validation.2 6 (by omega)).2.2 allOkOracle ⟨[], 0⟩ 0 0 0).1,
   ((slot_group_range_validation.2 6 (by omega)).2.2 allOkOracle ⟨[], 0⟩ 0 0 0).2.2.2⟩

lemma runCmds_ok (cs : List String) (o : Oracle) (s : TState)
    (h : ∀ i, i < cs.length → o.wr (s.sent.length + i) = none) :
    runCmds cs o s = (.ok (), ⟨s.sent ++ cs, s.nr⟩) := by
  induction cs generalizing s with
  | nil => simp [runCmds, pureM]
  | cons c cs ih =>
    have h0 : o.wr s.sent.length = none := by simpa using h 0 (by simp)
    have h' : ∀ i, i < cs.length → o.wr ((s.sent ++ [c]).length + i) = none := by
      intro i hi
      have := h (i + 1) (by simpa using Nat.succ_lt_succ hi)
      simpa [List.length_append, Nat.add_assoc, Nat.add_comm 1 i] using this
    simp only [runCmds, bindM, write, h0]
    rw [ih _ h']
    simp

lemma runCmds_fail (cs : List String) (o : Oracle) (s : TState) (k : Nat)
    (m : String) (hk : k < cs.length)
    (h : ∀ i, i < k → o.wr (s.sent.length + i) = none)
    (hm : o.wr (s.sent.length + k) = some m) :
    runCmds cs o s = (.error (.transport m), ⟨s.sent ++ cs.take (k + 1), s.nr⟩) := by
  induction cs generalizing s k with
  | nil => exact absurd hk (by simp)
  | cons c cs ih =>
    cases k with
    | zero =>
      have hm' : o.wr s.sent.length = some m := by simpa using hm
      simp only [runCmds, bindM, write, hm']
      simp
    | succ k =>
      have h0 : o.wr s.sent.length = none := by simpa using h 0 (by omega)
      have h' : ∀ i, i < k → o.wr ((s.sent ++ [c]).length + i) = none := by
        intro i hi
        have := h (i + 1) (by omega)
        simpa [List.length_append, Nat.add_assoc, Nat.add_comm 1 i] using this
      have hm' : o.wr ((s.sent ++ [c]).length + k) = some m := by
        simpa [List.length_append, Nat.add_assoc, Nat.add_comm 1 k] using hm
      simp only [runCmds, bindM, write, h0]
      rw [ih _ _ (by simpa using Nat.lt_of_succ_lt_succ (Nat.succ_lt_succ hk)) h' hm']
      simp

/-- C3: the soft reset issues exactly the twelve commands, in the order
output OFF CH1, CH2, CH3; track Independent; timer OFF CH1, CH2; waveform
display OFF CH1, CH2; then zeroed setpoints CH1 voltage, CH1 current, CH2
voltage, CH2 current; and when the k-th step fails, no later command is
attempted and that step's transport error is returned. -/
theorem soft_reset_order_and_fail_fast (o : Oracle) (s : TState) :
    softResetCmds =
      ["OUTPut CH1,OFF\n", "OUTPut CH2,OFF\n", "OUTPut CH3,OFF\n",
       "OUTP:TRACK 0\n",
       "TIMER CH1,OFF\n", "TIMER CH2,OFF\n",
       "OUTP:WAVE CH1,OFF\n", "OUTP:WAVE CH2,OFF\n",
       "CH1:VOLT 0.000000\n", "CH1:CURR 0.000000\n",
       "CH2:VOLT 0.000000\n", "CH2:CURR 0.000000\n"] ∧
    ((∀ i, i < 12 → o.wr (s.sent.length + i) = none) →
      Spd3303x.soft_reset o s = (.ok (), ⟨s.sent ++ softResetCmds, s.nr⟩)) ∧
    (∀ k m, k < 12 → (∀ i, i < k → o.wr (s.sent.length + i) = none) →
      o.wr (s.sent.length + k) = some m →
      Spd3303x.soft_reset o s =
        (.error (.transport m), ⟨s.sent ++ softResetCmds.take (k + 1), s.nr⟩)) := by
  have hrun : Spd3303x.soft_reset = runCmds softResetCmds := rfl
  have hlen : softResetCmds.length = 12 := rfl
  refine ⟨rfl, ?_, ?_⟩
  · intro h
    rw [hrun]
    exact runCmds_ok _ o s (fun i hi => h i (hlen ▸ hi))
  · intro k m hk h hm
    rw [hrun]
    exact runCmds_fail _ o s k m (hlen ▸ hk) h hm

/-- C3 witness: with an always-succeeding transport the soft reset sends
the twelve commands in order; with a transport failing at the fourth
write, exactly the first four commands are attempted and the transport
error surfaces. -/
theorem soft_reset_runs_concrete :
    Spd3303x.soft_reset allOkOracle ⟨[], 0⟩ = (.ok (), ⟨softResetCmds, 0⟩) ∧
    Spd3303x.soft_reset failAt3Oracle ⟨[], 0⟩ =
      (.error (.transport "io failure"), ⟨softResetCmds.take 4, 0⟩) :=
  ⟨(soft_reset_order_and_fail_fast allOkOracle ⟨[], 0⟩).2.1 (by decide),
   (soft_reset_order_and_fail_fast failAt3Oracle ⟨[], 0⟩).2.2 3 "io failure"
     (by decide) (by decide) (by decide)⟩

lemma bindM_write_ok {α : Type} (cmd : String) (f : Unit → M α) (o : Oracle)
    (s : TState) (hw : o.wr s.sent.length = none) :
    bindM (write cmd) f o s = f () o ⟨s.sent ++ [cmd], s.nr⟩ := by
  simp only [bindM, write, hw]

lemma bindM_read_ok {α : Type} (raw : String) (f : String → M α) (o : Oracle)
    (s : TState) (hr : o.rd s.nr = .ok raw) :
    bindM readResp f o s = f raw o ⟨s.sent, s.nr + 1⟩ := by
  simp only [bindM, readResp, hr]

lemma dropWhile_append_of_all {p : Char → Bool} {a : List Char} (l : List Char)
    (ha : ∀ x ∈ a, p x = true) : (a ++ l).dropWhile p = l.dropWhile p := by
  induction a with
  | nil => rfl
  | cons x xs ih =>
    rw [List.cons_append, List.dropWhile_cons, if_pos (ha x (List.mem_cons_self x xs))]
    exact ih fun y hy => ha y (List.mem_cons_of_mem x hy)

lemma dropWhile_eq_self_of_all_neg {p : Char → Bool} {l : List Char}
    (h : ∀ x ∈ l, p x = false) : l.dropWhile p = l := by
  cases l with
  | nil => rfl
  | cons x xs =>
    rw [List.dropWhile_cons, if_neg (by simp [h x (List.mem_cons_self x xs)])]

lemma trimRust_all_ws {l : List Char} (h : ∀ x ∈ l, isRustWs x = true) :
    trimRust ⟨l⟩ = "" := by
  have : dropEnds isRustWs l = [] := by
    unfold dropEnds
    rw [List.dropWhile_eq_nil_iff.mpr h]
    rfl
  unfold trimRust
  rw [this]

lemma ws_not_nul {x : Char} (hx : isRustWs x = true) : (x == nulChar) = false := by
  have hne : x ≠ nulChar := by
    intro he
    rw [he] at hx
    exact absurd hx (by decide)
  simpa using hne

lemma trimResp_of_padded {a b c : List Char}
    (ha : ∀ x ∈ a, x = nulChar) (hb : ∀ x ∈ b, isRustWs x = true)
    (hc : ∀ x ∈ c, x = nulChar) :
    trimResp ⟨a ++ b ++ c⟩ = "" := by
  have ha' : ∀ x ∈ a, (x == nulChar) = true := fun x hx => by simp [ha x hx]
  have hc' : ∀ x ∈ c, (x == nulChar) = true := fun x hx => by simp [hc x hx]
  unfold trimResp
  cases b with
  | nil =>
    have hfront : (a ++ [] ++ c).dropWhile (fun x => x == nulChar) = [] := by
      rw [List.append_nil, dropWhile_append_of_all c ha',
        List.dropWhile_eq_nil_iff.mpr hc']
    have : dropEnds (fun x => x == nulChar) (a ++ [] ++ c) = [] := by
      unfold dropEnds
      rw [hfront]
      rfl
    rw [this]
    exact trimRust_all_ws (by intro x hx; cases hx)
  | cons y ys =>
    have hyn : (y == nulChar) = false := ws_not_nul (hb y (List.mem_cons_self y ys))
    have hfront : (a ++ (y :: ys) ++ c).dropWhile (fun x => x == nulChar) =
        y :: (ys ++ c) := by
      rw [List.append_assoc, dropWhile_append_of_all _ ha', List.cons_append,
        List.dropWhile_cons, if_neg (by simp [hyn])]
    have hbackall : ∀ x ∈ List.reverse ys ++ [y], (x == nulChar) = false := by
      intro x hx
      rcases List.mem_append.mp hx with hx1 | hx2
      · exact ws_not_nul (hb x (List.mem_cons_of_mem y (List.mem_reverse.mp hx1)))
      · rcases List.mem_singleton.mp hx2 with rfl
        exact hyn
    have hback : (y :: (ys ++ c)).reverse.dropWhile (fun x => x == nulChar) =
        List.reverse ys ++ [y] := by
      rw [List.reverse_cons, List.reverse_append, List.append_assoc,
        dropWhile_append_of_all _ (fun x hx => hc' x (List.mem_reverse.mp hx)),
        dropWhile_eq_self_of_all_neg hbackall]
    have hres : dropEnds (fun x => x == nulChar) (a ++ (y :: ys) ++ c) = y :: ys := by
      unfold dropEnds
      rw [hfront, hback, List.reverse_append, List.reverse_reverse]
      rfl
    rw [hres]
    exact trimRust_all_ws hb

/-- C7: a query whose raw response is NUL padding around whitespace (in
particular an empty or whitespace-only response) fails with the dedicated
empty-response error, which is a different error constructor from both
decode failures and transport failures; a response with a non-empty
trimmed payload is never rejected at this stage and is returned trimmed. -/
theorem query_empty_response_spec (cmd raw : String) (o : Oracle) (s : TState)
    (hw : o.wr s.sent.length = none) (hr : o.rd s.nr = .ok raw) :
    ((∃ a b c, raw.data = a ++ b ++ c ∧ (∀ x ∈ a, x = nulChar) ∧
        (∀ x ∈ b, isRustWs x = true) ∧ (∀ x ∈ c, x = nulChar)) →
      query cmd o s = (.error (.emptyResponse cmd), ⟨s.sent ++ [cmd], s.nr + 1⟩)) ∧
    (trimResp raw ≠ "" →
      query cmd o s = (.ok (trimResp raw), ⟨s.sent ++ [cmd], s.nr + 1⟩)) ∧
    (∀ m1 m2 : String, Err.emptyResponse m1 ≠ Err.decodeFailure m2 ∧
      Err.emptyResponse m1 ≠ Err.transport m2) := by
  have hq : query cmd o s =
      (if trimResp raw = "" then ((.error (.emptyResponse cmd) : Except Err String))
       else .ok (trimResp raw), ⟨s.sent ++ [cmd], s.nr + 1⟩) := by
    unfold query
    rw [bindM_write_ok cmd _ o s hw,
      bindM_read_ok raw _ o ⟨s.sent ++ [cmd], s.nr⟩ hr]
    show (if trimResp raw = "" then liftE (.error (.emptyResponse cmd))
          else pureM (trimResp raw)) o ⟨s.sent ++ [cmd], s.nr + 1⟩ = _
    by_cases ht : trimResp raw = ""
    · rw [if_pos ht, if_pos ht]; rfl
    · rw [if_neg ht, if_neg ht]; rfl
  refine ⟨?_, ?_, ?_⟩
  · rintro ⟨a, b, c, hdata, ha, hb, hc⟩
    have he : trimResp raw = "" := by
      have h1 : raw = ⟨a ++ b ++ c⟩ := congrArg String.mk hdata
      rw [h1]
      exact trimResp_of_padded ha hb hc
    rw [hq, if_pos he]
  · intro hne
    rw [hq, if_neg hne]
  · intro m1 m2
    exact ⟨by simp, by simp⟩

/-- C7 witness: the response NUL-space-NUL to DHCP? fails with the
empty-response error, while the response 3.14 passes untouched. -/
theorem query_empty_response_witness :
    query "DHCP?\n" emptyRespOracle ⟨[], 0⟩ =
      (.error (.emptyResponse "DHCP?\n"), ⟨["DHCP?\n"], 1⟩) ∧
    query "*IDN?\n" okRespOracle ⟨[], 0⟩ = (.ok "3.14", ⟨["*IDN?\n"], 1⟩) :=
  ⟨(query_empty_response_spec "DHCP?\n" "\u0000 \u0000" emptyRespOracle ⟨[], 0⟩
      rfl rfl).1
     ⟨[nulChar], [' '], [nulChar], by decide, by decide, by decide, by decide⟩,
   (query_empty_response_spec "*IDN?\n" "3.14" okRespOracle ⟨[], 0⟩ rfl rfl).2.1
     (by decide)⟩

/-- C6: parsing the timer response 5.000000,1.000000,2.000000 with
caller-supplied group 2 yields the entry with group 2, voltage 5, current
1, duration 2; any response with fewer than three comma-separated fields,
or with a non-numeric field among the first three, fails with a decode
error; and every successful parse carries the caller-supplied group. -/
theorem parse_timer_response_spec :
    parse_timer_response 2 "5.000000,1.000000,2.000000" =
      .ok { group := 2, voltage_v := .finite 5, current_a := .finite 1,
            duration_s := .finite 2 } ∧
    (∀ (g : Nat) (resp : String),
      (splitComma (trimRust resp).data).length < 3 →
      ∃ m, parse_timer_response g resp = .error (.decodeFailure m)) ∧
    (∀ (g : Nat) (resp : String) (i : Nat),
      i < 3 → i < (splitComma (trimRust resp).data).length →
      parseFloatChars ((splitComma (trimRust resp).data).getD i []) = none →
      ∃ m, parse_timer_response g resp = .error (.decodeFailure m)) ∧
    (∀ (g : Nat) (resp : String) (e : TimerEntry),
      parse_timer_response g resp = .ok e → e.group = g) := by
  refine ⟨by decide, ?_, ?_, ?_⟩
  · intro g resp hlen
    rcases hp : splitComma (trimRust resp).data with _ | ⟨f1, rest1⟩
    · exact ⟨"missing voltage in timer response", by simp [parse_timer_response, hp]⟩
    · rcases rest1 with _ | ⟨f2, rest2⟩
      · cases hv1 : parseFloatChars f1
        · exact ⟨"invalid float literal", by simp [parse_timer_response, hp, hv1]⟩
        · exact ⟨"missing current in timer response",
            by simp [parse_timer_response, hp, hv1]⟩
      · rcases rest2 with _ | ⟨f3, rest3⟩
        · cases hv1 : parseFloatChars f1
          · exact ⟨"invalid float literal", by simp [parse_timer_response, hp, hv1]⟩
          · cases hv2 : parseFloatChars f2
            · exact ⟨"invalid float literal",
                by simp [parse_timer_response, hp, hv1, hv2]⟩
            · exact ⟨"missing duration in timer response",
                by simp [parse_timer_response, hp, hv1, hv2]⟩
        · rw [hp] at hlen
          simp at hlen
          omega
  · intro g resp i hi3 hilen hnone
    rcases hp : splitComma (trimRust resp).data with _ | ⟨f1, rest1⟩
    · rw [hp] at hilen
      simp at hilen
    · cases hv1 : parseFloatChars f1
      · exact ⟨"invalid float literal", by simp [parse_timer_response, hp, hv1]⟩
      · rcases rest1 with _ | ⟨f2, rest2⟩
        · exact ⟨"missing current in timer response",
            by simp [parse_timer_response, hp, hv1]⟩
        · cases hv2 : parseFloatChars f2
          · exact ⟨"invalid float literal",
              by simp [parse_timer_response, hp, hv1, hv2]⟩
          · rcases rest2 with _ | ⟨f3, rest3⟩
            · exact ⟨"missing duration in timer response",
                by simp [parse_timer_response, hp, hv1, hv2]⟩
            · cases hv3 : parseFloatChars f3
              · exact ⟨"invalid float literal",
                  by simp [parse_timer_response, hp, hv1, hv2, hv3]⟩
              · exfalso
                rw [hp] at hnone
                interval_cases i
                · rw [List.getD_cons_zero] at hnone
                  rw [hv1] at hnone
                  cases hnone
                · rw [List.getD_cons_succ, List.getD_cons_zero] at hnone
                  rw [hv2] at hnone
                  cases hnone
                · rw [List.getD_cons_succ, List.getD_cons_succ,
                    List.getD_cons_zero] at hnone
                  rw [hv3] at hnone
                  cases hnone
  · intro g resp e he
    rcases hp : splitComma (trimRust resp).data with _ | ⟨f1, rest1⟩
    · simp [parse_timer_response, hp] at he
    · cases hv1 : parseFloatChars f1
      · simp [parse_timer_response, hp, hv1] at he
      · rcases rest1 with _ | ⟨f2, rest2⟩
        · simp [parse_timer_response, hp, hv1] at he
        · cases hv2 : parseFloatChars f2
          · simp [parse_timer_response, hp, hv1, hv2] at he
          · rcases rest2 with _ | ⟨f3, rest3⟩
            · simp [parse_timer_response, hp, hv1, hv2] at he
            · cases hv3 : parseFloatChars f3
              · simp [parse_timer_response, hp, hv1, hv2, hv3] at he
              · simp only [parse_timer_response, hp, hv1, hv2, hv3,
                  Except.ok.injEq] at he
                rw [← he]

/-- C6 witness: a two-field response and a response with a non-numeric
first field both fail with a decode error, and the successful parse of the
concrete response carries the caller-supplied group 2. -/
theorem parse_timer_response_witness :
    (∃ m, parse_timer_response 1 "1.0,2.0" = .error (.decodeFailure m)) ∧
    (∃ m, parse_timer_response 1 "x,1.0,2.0" = .error (.decodeFailure m)) ∧
    TimerEntry.group
      { group := 2, voltage_v := .finite 5, current_a := .finite 1,
        duration_s := .finite 2 } = 2 :=
  ⟨parse_timer_response_spec.2.1 1 "1.0,2.0" (by decide),
   parse_timer_response_spec.2.2.1 1 "x,1.0,2.0" 0 (by decide) (by decide) (by decide),
   parse_timer_response_spec.2.2.2 2 "5.000000,1.000000,2.000000" _ (by decide)⟩

/-- C10: the timer response parser ignores every field beyond the third:
whenever the first three comma-separated fields parse as numbers, the
parse succeeds with exactly those three values, whatever trailing fields
(numeric or not) are present. -/
theorem parse_timer_ignores_extra_fields (g : Nat) (resp : String)
    (f1 f2 f3 : List Char) (rest : List (List Char)) (v1 v2 v3 : FVal)
    (hp : splitComma (trimRust resp).data = f1 :: f2 :: f3 :: rest)
    (h1 : parseFloatChars f1 = some v1) (h2 : parseFloatChars f2 = some v2)
    (h3 : parseFloatChars f3 = some v3) :
    parse_timer_response g resp =
      .ok { group := g, voltage_v := v1, current_a := v2, duration_s := v3 } := by
  simp [parse_timer_response, hp, h1, h2, h3]

/-- C10 witness: 1.0,2.0,3.0,junk parses successfully even though the
fourth field is not numeric. -/
theorem parse_timer_extra_fields_witness :
    parse_timer_response 4 "1.0,2.0,3.0,junk" =
      .ok { group := 4, voltage_v := .finite 1, current_a := .finite 2,
            duration_s := .finite 3 } :=
  parse_timer_ignores_extra_fields 4 "1.0,2.0,3.0,junk"
    ['1', '.', '0'] ['2', '.', '0'] ['3', '.', '0'] [['j', 'u', 'n', 'k']]
    (.finite 1) (.finite 2) (.finite 3)
    (by decide) (by decide) (by decide) (by decide)

lemma natStrAux_all_digits (fuel : Nat) :
    ∀ (n : Nat) (acc : List Char), (∀ c ∈ acc, isAsciiDigit c = true) →
      ∀ c ∈ natStrAux fuel n acc, isAsciiDigit c = true := by
  have hdig : ∀ d, d < 10 → isAsciiDigit (Nat.digitChar d) = true := by decide
  induction fuel with
  | zero => intro n acc hacc c hc; exact hacc c hc
  | succ fuel ih =>
    intro n acc hacc c hc
    simp only [natStrAux] at hc
    by_cases hn : n < 10
    · rw [if_pos hn] at hc
      rcases List.mem_cons.mp hc with rfl | hc2
      · exact hdig n hn
      · exact hacc c hc2
    · rw [if_neg hn] at hc
      refine ih (n / 10) _ ?_ c hc
      intro x hx
      rcases List.mem_cons.mp hx with rfl | hx2
      · exact hdig _ (Nat.mod_lt _ (by omega))
      · exact hacc x hx2

lemma natStrAux_length (fuel : Nat) :
    ∀ (n : Nat) (acc : List Char), n < 10 ^ fuel →
      (natStrAux fuel n acc).length ≤ fuel + acc.length := by
  induction fuel with
  | zero => intro n acc _; simp [natStrAux]
  | succ fuel ih =>
    intro n acc h
    simp only [natStrAux]
    by_cases hn : n < 10
    · rw [if_pos hn]
      simp
      omega
    · rw [if_neg hn]
      have hlt : n / 10 < 10 ^ fuel := by
        rw [Nat.div_lt_iff_lt_mul (by omega)]
        calc n < 10 ^ (fuel + 1) := h
          _ = 10 ^ fuel * 10 := by ring
      have := ih (n / 10) (Nat.digitChar (n % 10) :: acc) hlt
      simp only [List.length_cons] at this
      omega

lemma natStrAux_fuel_invariant :
    ∀ (f1 f2 n : Nat) (acc : List Char), n < 10 ^ f1 → 0 < f1 →
      n < 10 ^ f2 → 0 < f2 → natStrAux f1 n acc = natStrAux f2 n acc := by
  intro f1
  induction f1 with
  | zero => intro f2 n acc _ h01 _ _; omega
  | succ f1 ih =>
    intro f2 n acc h1 _ h2 h02
    cases f2 with
    | zero => omega
    | succ f2 =>
      simp only [natStrAux]
      by_cases hn : n < 10
      · rw [if_pos hn, if_pos hn]
      · rw [if_neg hn, if_neg hn]
        rw [Nat.pow_succ] at h1 h2
        have hd1 : n / 10 < 10 ^ f1 := by
          rw [Nat.div_lt_iff_lt_mul (by omega)]
          exact h1
        have hd2 : n / 10 < 10 ^ f2 := by
          rw [Nat.div_lt_iff_lt_mul (by omega)]
          exact h2
        have hten : (0 : Nat) < 10 := by omega
        have hp1 : 0 < f1 := by
          rcases Nat.eq_zero_or_pos f1 with rfl | hp
          · exfalso
            have h0 : n / 10 = 0 := by simpa using hd1
            omega
          · exact hp
        have hp2 : 0 < f2 := by
          rcases Nat.eq_zero_or_pos f2 with rfl | hp
          · exfalso
            have h0 : n / 10 = 0 := by simpa using hd2
            omega
          · exact hp
        exact ih f2 (n / 10) _ hd1 hp1 hd2 hp2

lemma natStr_length_le (k n : Nat) (h : n < 10 ^ k) (hk : 0 < k) :
    (natStr n).length ≤ k := by
  have hbig : n < 10 ^ (n + 1) :=
    lt_of_lt_of_le (Nat.lt_pow_self (by omega) n)
      (Nat.pow_le_pow_right (by omega) (by omega))
  unfold natStr
  rw [natStrAux_fuel_invariant (n + 1) k n [] hbig (by omega) h hk]
  simpa using natStrAux_length k n [] h

lemma natStr_all_digits (n : Nat) : ∀ c ∈ natStr n, isAsciiDigit c = true :=
  natStrAux_all_digits (n + 1) n [] (by intro c hc; cases hc)

lemma digit_ne_dot {c : Char} (hc : isAsciiDigit c = true) : (c != '.') = true := by
  have h1 : 0x30 ≤ c.toNat ∧ c.toNat ≤ 0x39 := by
    simpa [isAsciiDigit, Bool.and_eq_true, decide_eq_true_eq] using hc
  simp only [bne_iff_ne, ne_eq]
  intro he
  rw [he] at h1
  have : ('.' : Char).toNat = 46 := rfl
  omega

/-- C9: the fixed-point encoder always produces exactly six digits after
the decimal point, whatever the magnitude of the value (the fractional
part has length six and is all digits, and no decimal point occurs before
it); in particular encoding the f64 voltage 3.3 puts exactly the token
3.300000 into the command string. -/
theorem setpoint_six_decimal_encoding :
    (∀ q : ℚ, ∃ ip fr : String, fmt6 q = ip ++ "." ++ fr ∧
      fr.length = 6 ∧ fr.data.all isAsciiDigit = true ∧
      ip.data.all (fun c => c != '.') = true) ∧
    (∀ (o : Oracle) (s : TState),
      (Spd3303x.set_voltage .Ch1 f64_3_3 o s).2.sent =
        s.sent ++ ["CH1:VOLT 3.300000\n"] ∧
      (Spd3303x.set_current .Ch2 f64_3_3 o s).2.sent =
        s.sent ++ ["CH2:CURR 3.300000\n"]) := by
  constructor
  · intro q
    have hfr : ∀ m : Nat,
        (List.replicate (6 - (natStr (m % 1000000)).length) '0' ++
          natStr (m % 1000000)).length = 6 := by
      intro m
      have hmod : m % 1000000 < 10 ^ 6 := by
        have := Nat.mod_lt m (show 0 < 1000000 by omega)
        simpa using this
      have := natStr_length_le 6 (m % 1000000) hmod (by omega)
      rw [List.length_append, List.length_replicate]
      omega
    refine ⟨(if q.num < 0 then "-" else "") ++
        ⟨natStr ((roundHalfEven ((if q.num < 0 then -q.num else q.num) * 1000000)
          (q.den : ℤ)).toNat / 1000000)⟩,
      ⟨padSix (natStr ((roundHalfEven ((if q.num < 0 then -q.num else q.num) * 1000000)
          (q.den : ℤ)).toNat % 1000000))⟩, rfl, ?_, ?_, ?_⟩
    · show (padSix (natStr _)).length = 6
      unfold padSix
      exact hfr _
    · rw [List.all_eq_true]
      intro x hx
      rcases List.mem_append.mp hx with h | h
      · rw [List.eq_of_mem_replicate h]
        decide
      · exact natStr_all_digits _ x h
    · rw [List.all_eq_true]
      intro x hx
      rw [String.data_append] at hx
      rcases List.mem_append.mp hx with h | h
      · by_cases hneg : q.num < 0
        · rw [if_pos hneg] at h
          rcases List.mem_singleton.mp h with rfl
          decide
        · rw [if_neg hneg] at h
          cases h
      · exact digit_ne_dot (natStr_all_digits _ x h)
  · intro o s
    have hf : fmt6 f64_3_3 = "3.300000" := by decide
    constructor
    · simp only [Spd3303x.set_voltage, bindM, liftE, guard_programmable, write, hf]
      cases h : o.wr s.sent.length <;> rfl
    · simp only [Spd3303x.set_current, bindM, liftE, guard_programmable, write, hf]
      cases h : o.wr s.sent.length <;> rfl

lemma startsWithL_iff (p : List Char) :
    ∀ l, startsWithL l p = true ↔ ∃ r, l = p ++ r := by
  induction p with
  | nil =>
    intro l
    cases l <;> simp [startsWithL]
  | cons b bs ih =>
    intro l
    cases l with
    | nil => simp [startsWithL]
    | cons a xs =>
      simp only [startsWithL, Bool.and_eq_true, beq_iff_eq, List.cons_append]
      constructor
      · rintro ⟨rfl, h⟩
        rcases (ih xs).mp h with ⟨r, rfl⟩
        exact ⟨r, rfl⟩
      · rintro ⟨r, hr⟩
        injection hr with h1 h2
        exact ⟨h1, (ih xs).mpr ⟨r, h2⟩⟩

lemma hasInfixL_iff (p : List Char) :
    ∀ l, hasInfixL l p = true ↔ ∃ u v, l = u ++ p ++ v := by
  intro l
  induction l with
  | nil =>
    simp only [hasInfixL]
    rw [startsWithL_iff]
    constructor
    · rintro ⟨r, hr⟩
      exact ⟨[], r, by simpa using hr⟩
    · rintro ⟨u, v, huv⟩
      rw [List.append_assoc] at huv
      rcases List.append_eq_nil.mp huv.symm with ⟨rfl, h2⟩
      rcases List.append_eq_nil.mp h2 with ⟨rfl, rfl⟩
      exact ⟨[], rfl⟩
  | cons c cs ih =>
    simp only [hasInfixL, Bool.or_eq_true]
    rw [startsWithL_iff, ih]
    constructor
    · rintro (⟨r, hr⟩ | ⟨u, v, huv⟩)
      · exact ⟨[], r, by simpa using hr⟩
      · exact ⟨c :: u, v, by simp [huv]⟩
    · rintro ⟨u, v, huv⟩
      cases u with
      | nil => exact Or.inl ⟨v, by simpa using huv⟩
      | cons x us =>
        right
        rw [List.cons_append, List.cons_append] at huv
        injection huv with h1 h2
        exact ⟨us, v, by simpa [List.append_assoc] using h2⟩

lemma map_eq_append_split {f : Char → Char} {u : List Char} :
    ∀ {l v : List Char}, l.map f = u ++ v →
      ∃ u2 v2, l = u2 ++ v2 ∧ u2.map f = u ∧ v2.map f = v := by
  induction u with
  | nil => intro l v h; exact ⟨[], l, rfl, rfl, by simpa using h⟩
  | cons x us ih =>
    intro l v h
    cases l with
    | nil => simp at h
    | cons c cs =>
      rw [List.map_cons, List.cons_append] at h
      injection h with h1 h2
      rcases ih h2 with ⟨u2, v2, rfl, hu, hv⟩
      exact ⟨c :: u2, v2, rfl, by simp [h1, hu], hv⟩

/-- C1 (amended): the DHCP query's boolean decode returns true exactly
when the uppercased response contains ON as a contiguous substring, i.e.
when the response has two adjacent characters uppercasing to O and N; in
particular ON, on and oN decode true, while 1, OFF and 0 decode false.
The unused helper parse_on_off does implement the ON-or-literal-1 rule. -/
theorem dhcp_decode_contains_on :
    (∀ s : String, dhcp_decode s = true ↔
      ∃ pre c1 c2 post, s.data = pre ++ c1 :: c2 :: post ∧
        rustToUpper c1 = 'O' ∧ rustToUpper c2 = 'N') ∧
    dhcp_decode "ON" = true ∧ dhcp_decode "on" = true ∧ dhcp_decode "oN" = true ∧
    dhcp_decode "1" = false ∧ dhcp_decode "OFF" = false ∧ dhcp_decode "0" = false ∧
    parse_on_off "ON" = true ∧ parse_on_off "on" = true ∧ parse_on_off "1" = true ∧
    parse_on_off "OFF" = false ∧ parse_on_off "0" = false := by
  refine ⟨?_, by decide, by decide, by decide, by decide, by decide, by decide,
    by decide, by decide, by decide, by decide, by decide⟩
  intro s
  unfold dhcp_decode
  rw [hasInfixL_iff]
  constructor
  · rintro ⟨u, v, huv⟩
    rw [List.append_assoc] at huv
    rcases map_eq_append_split huv with ⟨pre, w, hl, _, hw⟩
    cases w with
    | nil => simp at hw
    | cons c1 w1 =>
      rw [List.map_cons] at hw
      injection hw with hc1 hw1
      cases w1 with
      | nil => simp at hw1
      | cons c2 post =>
        rw [List.map_cons] at hw1
        injection hw1 with hc2 _
        exact ⟨pre, c1, c2, post, hl, hc1, hc2⟩
  · rintro ⟨pre, c1, c2, post, hdata, h1, h2⟩
    refine ⟨pre.map rustToUpper, post.map rustToUpper, ?_⟩
    rw [hdata]
    simp [List.map_append, h1, h2]

/-- C1 counterexample: the claim that the literal response 1 decodes to
DHCP-enabled is false on the code: the DHCP query decodes 1 to Off, and
the decode predicate evaluates to false on 1. -/
theorem query_dhcp_one_decodes_off :
    Spd3303x.query_dhcp dhcpOneOracle ⟨[], 0⟩ =
      (.ok DhcpState.Off, ⟨["DHCP?\n"], 1⟩) ∧
    dhcp_decode "1" = false := by
  exact ⟨by decide, by decide⟩

/-- C1 witness: the amended characterization applied to the response ON. -/
theorem dhcp_decode_on_true : dhcp_decode "ON" = true :=
  dhcp_decode_contains_on.2.1

end Spd
